import Mathlib

/-!
Shallow embedding of `src/fixmetadata.py`, a Google-Photos-Takeout metadata
repair script, together with theorems checking its natural-language
specification.

Modelling conventions:
* Python strings are Lean `String`s.  `str.lower` is modelled by ASCII case
  folding via `Char.toLower` (all names and extensions involved are ASCII).
* A directory is modelled by the list of file names it contains, in the
  implementation-defined order `os.listdir` returns them.  `glob.glob`
  prepends the directory onto each hit in the source; that join is dropped
  here because every downstream check (`os.path.splitext`,
  `str.endswith('.json')`) depends only on the final name component.
* `subprocess.run` is modelled by an environment `Nat → ProcOutcome` giving
  the outcome of the i-th process invocation performed by one call of
  `robust_exiftool_exec`: either an exit code together with the captured
  stderr text, or a raised exception carrying a message.
* JSON sidecar content is modelled by the `Sidecar` structure holding the
  four time-source fields and the two geo fields the script reads.  Numeric
  JSON values are modelled as integers (the timestamps the script consumes
  are integral epoch seconds); `datetime.timestamp()` on a naive datetime
  uses the host's local timezone, modelled by an explicit offset parameter
  `localOff` (seconds east of UTC).
-/

namespace FixMetadata

/-- Python `str.lower` (ASCII folding). -/
def lowerStr (s : String) : String := String.mk (s.data.map Char.toLower)

/-- Python `str.endswith(suff)`. -/
def endsWithStr (s suff : String) : Bool := List.isSuffixOf suff.data s.data

/-- Does a name start with a dot?  Such names are "hidden" for `glob`. -/
def startsWithDot (s : String) : Bool :=
  match s.data with
  | '.' :: _ => true
  | _ => false

/-- Python `str.strip()`: drop leading and trailing whitespace. -/
def str_strip (s : String) : String :=
  String.mk (((s.data.dropWhile Char.isWhitespace).reverse.dropWhile Char.isWhitespace).reverse)

/-- Extension part `os.path.splitext(name)[1]`.  The extension starts at the
last dot of the base name, except that leading dots never begin an
extension (`splitext(".bashrc") = (".bashrc", "")`).  The source applies
`splitext` to the directory-joined path; its result only depends on the
final name component, which is what this definition receives. -/
def splitext_ext (name : String) : String :=
  let cs := name.data
  let lead := cs.takeWhile (fun c => c == '.')
  let rest := cs.drop lead.length
  let tail := rest.reverse.takeWhile (fun c => c != '.')
  if tail.length < rest.length then String.mk ('.' :: tail.reverse) else ""

/-- Python `str.split('.')` on a character list (never returns `[]`). -/
def splitDots : List Char → List (List Char)
  | [] => [[]]
  | '.' :: cs => [] :: splitDots cs
  | c :: cs =>
    match splitDots cs with
    | s :: ss => (c :: s) :: ss
    | [] => [[c]]

/-- Reassemble segments with `'.'` between them (inverse of `splitDots`). -/
def joinDots : List (List Char) → List Char
  | [] => []
  | [s] => s
  | s :: ss => s ++ '.' :: joinDots ss

/-- Python `glob.escape`: wrap each of the magic characters `*`, `?`, `[` in
a one-character bracket class.  Note the source applies this to whole
candidate patterns, wildcards included. -/
def glob_escape (s : String) : String :=
  String.mk (s.data.flatMap (fun c => if c = '*' ∨ c = '?' ∨ c = '[' then ['[', c, ']'] else [c]))

/-- Find the closing `]` of a bracket class body: returns the content before
it and the remaining pattern after it. -/
def findClose : List Char → Option (List Char × List Char)
  | [] => none
  | ']' :: cs => some ([], cs)
  | c :: cs => (findClose cs).map (fun p => (c :: p.1, p.2))

/-- Parse a bracket class after an opening `[`: an optional `!` negation, a
`]` that is literal when it comes first, then content up to the closing
`]`.  Returns `(negated, content, rest)`; `none` when there is no closing
bracket, in which case `fnmatch` treats the `[` literally.  Character
ranges (`a-z`) are not modelled: the script only feeds `glob` the output of
`glob.escape`, whose classes are single literal characters. -/
def parseClass (ps : List Char) : Option (Bool × List Char × List Char) :=
  let neg := match ps with
    | '!' :: _ => true
    | _ => false
  let body := match ps with
    | '!' :: cs => cs
    | _ => ps
  let split : Option (List Char × List Char) := match body with
    | ']' :: cs => (findClose cs).map (fun p => (']' :: p.1, p.2))
    | _ => findClose body
  split.map (fun p => (neg, p.1, p.2))

/-- Fuel-driven `fnmatch` core: `*` matches any run, `?` any single
character, `[...]` a character class; other characters match literally.
Every recursive call shrinks the combined length of pattern and name, so
fuel `|p| + |n| + 1` never runs out. -/
def glob_match_fuel : Nat → List Char → List Char → Bool
  | 0, _, _ => false
  | Nat.succ fuel, p, n =>
    match p, n with
    | [], rest => rest.isEmpty
    | '*' :: ps, rest =>
      glob_match_fuel fuel ps rest ||
        (match rest with
         | [] => false
         | _ :: nt => glob_match_fuel fuel ('*' :: ps) nt)
    | '?' :: ps, rest =>
      match rest with
      | [] => false
      | _ :: nt => glob_match_fuel fuel ps nt
    | '[' :: ps, rest =>
      match parseClass ps with
      | some (neg, content, after) =>
        match rest with
        | [] => false
        | c :: nt => (content.contains c != neg) && glob_match_fuel fuel after nt
      | none =>
        match rest with
        | '[' :: nt => glob_match_fuel fuel ps nt
        | _ => false
    | pc :: ps, rest =>
      match rest with
      | [] => false
      | c :: nt => (c == pc) && glob_match_fuel fuel ps nt

/-- `fnmatch.fnmatch` on POSIX (`normcase` is the identity there). -/
def glob_match (p n : List Char) : Bool :=
  glob_match_fuel (p.length + n.length + 1) p n

/-- `glob.glob(os.path.join(directory, pattern))` restricted to the name
components: names hidden by a leading dot are only matched by patterns that
themselves start with a dot, the rest are matched by `fnmatch`.  Result
order follows directory order. -/
def glob_glob (pat : String) (files : List String) : List String :=
  let names := if startsWithDot pat then files else files.filter (fun n => !startsWithDot n)
  names.filter (fun n => glob_match pat.data n.data)

/-- Extension whitelist `valid_exts` of `smart_file_matcher`
(src/fixmetadata.py:131).  The source uses a Python set; only membership is
ever queried, so a list is an equivalent model. -/
def valid_exts : List String :=
  [".jpg", ".jpeg", ".png", ".gif", ".mp4", ".mov", ".heic", ".webp"]

/-- Candidate filter of the matcher loop (src/fixmetadata.py:143-145):
`ext = os.path.splitext(candidate)[1].lower()` must be whitelisted and the
candidate must not itself end in ".json". -/
def valid_candidate (candidate : String) : Bool :=
  decide (lowerStr (splitext_ext candidate) ∈ valid_exts) &&
    !endsWithStr (lowerStr candidate) ".json"

/-- Core-name extraction of `smart_file_matcher` (src/fixmetadata.py:120-130):
`re.match(r'^(.*)\.[^.]+\.[^.]+\.json$', json_name, re.IGNORECASE)`.
The greedy group `(.*)` takes everything up to the third-from-last dot, so a
name matches exactly when, splitting on dots, it has at least four segments,
its last segment is "json" up to case, and the two segments before that are
nonempty; the group is the joined remainder. -/
def smart_core (json_name : String) : Option String :=
  match (splitDots json_name.data).reverse with
  | j :: e2 :: e1 :: c0 :: rest =>
    if j.map Char.toLower = ['j', 's', 'o', 'n'] ∧ e2 ≠ [] ∧ e1 ≠ [] then
      some (String.mk (joinDots ((c0 :: rest).reverse)))
    else none
  | _ => none

/-- Python `core_name.split('.')[0]` (src/fixmetadata.py:137). -/
def first_token (s : String) : String := String.mk ((splitDots s.data).headD [])

/-- The three candidate patterns of the matcher (src/fixmetadata.py:134-138):
exact core, `core.*`, and `first-dot-segment*`. -/
def match_patterns (core_name : String) : List String :=
  [core_name, core_name ++ ".*", first_token core_name ++ "*"]

/-- One iteration of the pattern loop (src/fixmetadata.py:140-145): escape
the pattern, glob it against the directory, and return the first candidate
passing the extension filter. -/
def match_one_pattern (files : List String) (pattern : String) : Option String :=
  (glob_glob (glob_escape pattern) files).find? valid_candidate

/-- `smart_file_matcher(json_name, directory)` (src/fixmetadata.py:117-146),
with the directory given as its list of file names.  Returns the matched
media file name, or `none` (the source's `None`). -/
def smart_file_matcher (json_name : String) (files : List String) : Option String :=
  match smart_core json_name with
  | none => none
  | some core_name => (match_patterns core_name).findSome? (match_one_pattern files)

/-- A JSON value found in one of the sidecar time fields: a number (the
integral epoch seconds the script consumes) or a string. -/
inductive TimeValue
  | num (n : Int)
  | str (s : String)
deriving DecidableEq

/-- The sidecar fields read by `enhanced_parse_time` (the four
`(object, field)` time sources of src/fixmetadata.py:44-49) and by
`safe_geo_parse` (the `geoData` latitude/longitude of
src/fixmetadata.py:85-87).  A `none` field models a missing key. -/
structure Sidecar where
  photoTakenTime_timestamp : Option TimeValue
  creationTime_timestamp : Option TimeValue
  photoTakenTime_formatted : Option TimeValue
  creationTime_formatted : Option TimeValue
  geoData_latitude : Option ℚ
  geoData_longitude : Option ℚ
deriving DecidableEq

/-- The `time_sources` priority list (src/fixmetadata.py:44-49), in source
order: taken-epoch, creation-epoch, taken-formatted, creation-formatted. -/
def time_sources (s : Sidecar) : List (Option TimeValue) :=
  [s.photoTakenTime_timestamp, s.creationTime_timestamp,
   s.photoTakenTime_formatted, s.creationTime_formatted]

/-- Python truthiness of a sidecar value, as tested by the walrus
`if value := data.get(main_key, {}).get(sub_key):` (src/fixmetadata.py:52):
the number 0 and the empty string are falsy. -/
def truthy_value : TimeValue → Bool
  | TimeValue.num n => n != 0
  | TimeValue.str s => !s.data.isEmpty

/-- Python `str.isdigit` restricted to ASCII digits (the sidecars' numeric
strings are ASCII). -/
def is_digit_string (s : String) : Bool :=
  !s.data.isEmpty && s.data.all Char.isDigit

/-- Decimal value of a digit run. -/
def nat_of_digits (cs : List Char) : Nat :=
  cs.foldl (fun a c => a * 10 + (c.toNat - 48)) 0

/-- Gregorian leap year. -/
def is_leap (y : Nat) : Bool :=
  y % 4 == 0 && (y % 100 != 0 || y % 400 == 0)

/-- Length of a month, as validated by the `datetime` constructor. -/
def days_in_month (y m : Nat) : Nat :=
  if m = 2 then (if is_leap y then 29 else 28)
  else if m = 4 ∨ m = 6 ∨ m = 9 ∨ m = 11 then 30 else 31

/-- A civil date-time as produced by `datetime.strptime`. -/
structure CivilTime where
  year : Nat
  month : Nat
  day : Nat
  hour : Nat
  minute : Nat
  second : Nat
deriving DecidableEq

/-- Leading digit run of a character list, with the remainder. -/
def take_digits (cs : List Char) : List Char × List Char :=
  (cs.takeWhile Char.isDigit, cs.dropWhile Char.isDigit)

/-- Consume a literal `:` of the strptime format. -/
def expect_colon : List Char → Option (List Char)
  | ':' :: cs => some cs
  | _ => none

/-- Consume the whitespace the format's blank maps to (`\s+`: one or more). -/
def skip_spaces (cs : List Char) : Option (List Char) :=
  let ws := cs.takeWhile Char.isWhitespace
  if ws.isEmpty then none else some (cs.drop ws.length)

/-- Consume a one- or two-digit numeric field (`%m`, `%d`, `%H`, `%M`, `%S`
match at most two digits; a longer digit run makes the following literal
fail, which this models by rejecting runs of other lengths). -/
def parse_two_digit (cs : List Char) : Option (Nat × List Char) :=
  let p := take_digits cs
  if p.1.length = 1 ∨ p.1.length = 2 then some (nat_of_digits p.1, p.2) else none

/-- `datetime.strptime(value, "%Y:%m:%d %H:%M:%S")` (src/fixmetadata.py:61):
`%Y` is exactly four digits, the other fields one or two; the whole string
must be consumed; the `datetime` constructor then validates year ≥ 1,
month 1-12, day against the month length, hour ≤ 23, minute ≤ 59 and
second ≤ 59.  `none` models the raised `ValueError`. -/
def parse_formatted (s : String) : Option CivilTime :=
  let yp := take_digits s.data
  if yp.1.length ≠ 4 then none else
  (expect_colon yp.2).bind fun r2 =>
  (parse_two_digit r2).bind fun mp =>
  (expect_colon mp.2).bind fun r3 =>
  (parse_two_digit r3).bind fun dp =>
  (skip_spaces dp.2).bind fun r4 =>
  (parse_two_digit r4).bind fun hp =>
  (expect_colon hp.2).bind fun r5 =>
  (parse_two_digit r5).bind fun minp =>
  (expect_colon minp.2).bind fun r6 =>
  (parse_two_digit r6).bind fun secp =>
  let y := nat_of_digits yp.1
  if secp.2.isEmpty ∧ 1 ≤ y ∧ 1 ≤ mp.1 ∧ mp.1 ≤ 12 ∧ 1 ≤ dp.1 ∧
      dp.1 ≤ days_in_month y mp.1 ∧ hp.1 ≤ 23 ∧ minp.1 ≤ 59 ∧ secp.1 ≤ 59
  then some ⟨y, mp.1, dp.1, hp.1, minp.1, secp.1⟩
  else none

/-- Days since 1970-01-01 of a civil date (Gregorian, proleptic); the
months are validated to 1-12 and years to ≥ 1 before this is called. -/
def civil_to_days (y m d : Nat) : Int :=
  let yy := if m ≤ 2 then y - 1 else y
  let era := yy / 400
  let yoe := yy % 400
  let mp := (m + 9) % 12
  let doy := (153 * mp + 2) / 5 + d - 1
  let doe := yoe * 365 + yoe / 4 - yoe / 100 + doy
  (era : Int) * 146097 + (doe : Int) - 719468

/-- Seconds since the epoch of a civil date-time read in UTC. -/
def civil_seconds (c : CivilTime) : Int :=
  civil_to_days c.year c.month c.day * 86400 +
    (c.hour : Int) * 3600 + (c.minute : Int) * 60 + (c.second : Int)

/-- One parsing attempt of the source loop body (src/fixmetadata.py:53-65):
a number is taken as epoch seconds directly; an all-digit string is
converted with `int`; any other string goes through `strptime` followed by
`dt.timestamp()`, which interprets the naive value in the host's local
timezone, modelled by subtracting `localOff` seconds.  `none` models the
caught `ValueError` making the loop continue. -/
def try_parse_value (localOff : Int) : TimeValue → Option Int
  | TimeValue.num n => some n
  | TimeValue.str s =>
    if is_digit_string s then some (nat_of_digits s.data : Int)
    else (parse_formatted s).map (fun c => civil_seconds c - localOff)

/-- The source-scanning loop of `enhanced_parse_time`
(src/fixmetadata.py:51-65): a missing or falsy value falls through to the
next source (the walrus test), a truthy value is parsed, a parse failure
falls through, and the first parsed value breaks the loop. -/
def find_timestamp (localOff : Int) : List (Option TimeValue) → Option Int
  | [] => none
  | src :: rest =>
    match src with
    | none => find_timestamp localOff rest
    | some v =>
      if truthy_value v then
        match try_parse_value localOff v with
        | some t => some t
        | none => find_timestamp localOff rest
      else find_timestamp localOff rest

/-- Epoch seconds of the smallest `datetime` (0001-01-01 00:00:00). -/
def min_epoch : Int := -62135596800

/-- Epoch seconds of the largest `datetime` (9999-12-31 23:59:59). -/
def max_epoch : Int := 253402300799

/-- Digit character of a value below ten. -/
def digit_char (n : Nat) : Char := Char.ofNat (48 + n)

/-- Two-digit zero-padded decimal (strftime `%m`, `%d`, `%H`, `%M`, `%S`). -/
def pad2 (n : Nat) : String := String.mk [digit_char (n / 10 % 10), digit_char (n % 10)]

/-- Four-digit zero-padded decimal (strftime `%Y`; all reachable years have
four digits). -/
def pad4 (n : Nat) : String :=
  String.mk [digit_char (n / 1000 % 10), digit_char (n / 100 % 10),
             digit_char (n / 10 % 10), digit_char (n % 10)]

/-- Civil date of a day count shifted by 719468 (so the argument is the
number of days since 0000-03-01, nonnegative for every representable
`datetime`). -/
def civil_of_days (z : Nat) : Nat × Nat × Nat :=
  let era := z / 146097
  let doe := z % 146097
  let yoe := (doe - doe / 1460 + doe / 36524 - doe / 146096) / 365
  let y := yoe + era * 400
  let doy := doe - (365 * yoe + yoe / 4 - yoe / 100)
  let mp := (5 * doy + 2) / 153
  let d := doy - (153 * mp + 2) / 5 + 1
  let m := if mp < 10 then mp + 3 else mp - 9
  (if m ≤ 2 then y + 1 else y, m, d)

/-- `datetime.utcfromtimestamp(t) + timedelta(hours=8)` followed by
`strftime("%Y:%m:%d %H:%M:%S")` (src/fixmetadata.py:72-73).  Timestamps
whose UTC value or whose shifted value falls outside the representable
`datetime` range raise, which the function-level handler turns into `None`
(src/fixmetadata.py:75-77), modelled by `none`. -/
def beijing_time (t : Int) : Option String :=
  if min_epoch ≤ t ∧ t + 28800 ≤ max_epoch then
    let shifted := t + 28800
    let days := Int.fdiv shifted 86400
    let secs := (Int.fmod shifted 86400).toNat
    let ymd := civil_of_days (days + 719468).toNat
    some (pad4 ymd.1 ++ ":" ++ pad2 ymd.2.1 ++ ":" ++ pad2 ymd.2.2 ++ " " ++
      pad2 (secs / 3600) ++ ":" ++ pad2 (secs % 3600 / 60) ++ ":" ++ pad2 (secs % 60))
  else none

/-- `enhanced_parse_time` (src/fixmetadata.py:35-77) on an already-parsed
sidecar: scan the four time sources, then `if not timestamp:` rejects both
a missing result and the epoch value 0, and otherwise the UTC+8-shifted
string is produced. -/
def enhanced_parse_time (localOff : Int) (s : Sidecar) : Option String :=
  match find_timestamp localOff (time_sources s) with
  | none => none
  | some t => if t = 0 then none else beijing_time t

/-- Modelled from the claim's words (C5), not from the source: the first of
the four locations holding a usable value — numeric, all-digit string, or
parseable formatted string — is the one used, with a parse failure falling
through to the next location. -/
def claim_first_usable (localOff : Int) (srcs : List (Option TimeValue)) : Option Int :=
  srcs.findSome? (fun src => src.bind (try_parse_value localOff))

/-- Modelled from the amended claim's words (C5): locations holding a falsy
value (the number 0 or the empty string) are skipped as unusable; the first
remaining location with a parseable value is the one used. -/
def amended_first_usable (localOff : Int) (srcs : List (Option TimeValue)) : Option Int :=
  srcs.findSome? (fun src =>
    src.bind (fun v => if truthy_value v then try_parse_value localOff v else none))

/-- `safe_geo_parse` (src/fixmetadata.py:79-98) on an already-parsed
sidecar.  Missing latitude/longitude default to 0 (`geo.get(..., 0.0)`);
coordinates are modelled as rationals (the decimal values involved are
exact).  The second component records whether the invalid-coordinate
warning was logged; both warning-free `None` and warned `None` are the
source's `None` return. -/
def safe_geo_parse (s : Sidecar) : Option (ℚ × ℚ) × Bool :=
  let lat := s.geoData_latitude.getD 0
  let lon := s.geoData_longitude.getD 0
  if |lat| < 1 / 1000000 ∧ |lon| < 1 / 1000000 then (none, false)
  else if ¬(-90 ≤ lat ∧ lat ≤ 90) ∨ ¬(-180 ≤ lon ∧ lon ≤ 180) then (none, true)
  else (some (lat, lon), false)

/-- Outcome of one `subprocess.run` call: an exit code with the captured
stderr, or a raised exception with its message. -/
inductive ProcOutcome
  | ok (returncode : Int) (stderr : String)
  | exn (msg : String)
deriving DecidableEq

/-- Observable behaviour of one `robust_exiftool_exec` call: the returned
pair (`Except.ok`) or a propagated exception (`Except.error`); the list of
commands handed to `run_command`, in order; and the caller's command list
as it stands after the call (the source mutates it in place). -/
structure ExecResult where
  result : Except String (Bool × Option String)
  trace : List (List String)
  final_cmd : List String

/-- Python `list.insert(i, x)` for a nonnegative index: the index is
clamped to the length, so this is take/cons/drop. -/
def py_insert (i : Nat) (x : α) (l : List α) : List α :=
  l.take i ++ x :: l.drop i

/-- The metadata-strip command `clean_cmd` (src/fixmetadata.py:173). -/
def clean_cmd_for (file_path : String) : List String :=
  ["exiftool", "-m", "-overwrite_original", "-all=", file_path]

/-- Run/clean/retry sequence of `robust_exiftool_exec`
(src/fixmetadata.py:160-193), after `-m` has been inserted.  The first
invocation sits outside the `try` block, so an exception it raises
propagates (`Except.error`); the clean and retry invocations sit inside it,
so their exceptions become the generic failure message.  Returns the result
together with the invocation trace. -/
def robust_runs (cmd1 clean_cmd : List String) (env : Nat → ProcOutcome) :
    Except String (Bool × Option String) × List (List String) :=
  match env 0 with
  | ProcOutcome.exn m => (Except.error m, [cmd1])
  | ProcOutcome.ok rc _ =>
    if rc = 0 then (Except.ok (true, none), [cmd1])
    else
      match env 1 with
      | ProcOutcome.exn m =>
        (Except.ok (false, some ("意外错误: " ++ m)), [cmd1, clean_cmd])
      | ProcOutcome.ok crc cerr =>
        if crc ≠ 0 then
          (Except.ok (false, some ("清空元数据失败: " ++ str_strip cerr)), [cmd1, clean_cmd])
        else
          match env 2 with
          | ProcOutcome.exn m =>
            (Except.ok (false, some ("意外错误: " ++ m)), [cmd1, clean_cmd, cmd1])
          | ProcOutcome.ok rrc rerr =>
            if rrc = 0 then (Except.ok (true, none), [cmd1, clean_cmd, cmd1])
            else
              (Except.ok (false, some ("最终失败: " ++ str_strip rerr)),
               [cmd1, clean_cmd, cmd1])

/-- `robust_exiftool_exec(cmd, file_path, logger)` (src/fixmetadata.py:148-193):
`cmd.insert(1, '-m')` mutates the caller's list, then the run/clean/retry
sequence executes against the process environment `env`. -/
def robust_exiftool_exec (cmd : List String) (file_path : String)
    (env : Nat → ProcOutcome) : ExecResult :=
  let cmd1 := py_insert 1 "-m" cmd
  let r := robust_runs cmd1 (clean_cmd_for file_path) env
  ⟨r.1, r.2, cmd1⟩

/-- Lines written into the failure report (src/fixmetadata.py:249-255),
modelled line by line. -/
def failure_report_lines (failures : List (String × String)) : List String :=
  ["失败文件列表：", String.mk (List.replicate 50 '=')] ++
    failures.flatMap (fun pr =>
      ["文件路径: " ++ pr.1, "失败原因: " ++ pr.2, String.mk (List.replicate 50 '-')])

/-- `generate_failure_log(failures, log_path)` (src/fixmetadata.py:242-257):
nothing is written when there are no failures; otherwise a file named by
prefixing `FAILURES_` onto the log file's base name receives the report
(the run log lives in the working directory, so the directory join is the
identity).  Returns the written file's name and lines. -/
def generate_failure_log (failures : List (String × String)) (log_path : String) :
    Option (String × List String) :=
  if failures.isEmpty then none
  else some ("FAILURES_" ++ log_path, failure_report_lines failures)

/-- Exit dispatch of `main` (src/fixmetadata.py:259-294): an invalid target
directory exits 1 before the run; a run raising an unhandled exception
exits 1; a run returning failures writes the failure report and exits 101;
an empty failure list exits 0 with no report.  The run itself is abstracted
as `Except String (List (String × String))`: either an exception or the
failure list `process_directory` returns.  The result is the exit status
and the report file written, if any. -/
def main_run (isdir : Bool) (run : Except String (List (String × String)))
    (log_path : String) : Nat × Option (String × List String) :=
  if isdir = false then (1, none)
  else
    match run with
    | Except.error _ => (1, none)
    | Except.ok failed =>
      if failed.isEmpty = false then (101, generate_failure_log failed log_path)
      else (0, none)

/-- Helper: a successful `findSome?` comes from some list element. -/
theorem exists_of_findSome?_eq_some {α β : Type} {f : α → Option β} :
    ∀ {l : List α} {b : β}, l.findSome? f = some b → ∃ a, a ∈ l ∧ f a = some b := by
  intro l
  induction l with
  | nil => intro b h; simp [List.findSome?] at h
  | cons x xs ih =>
    intro b h
    rw [List.findSome?_cons] at h
    cases hfx : f x with
    | some c =>
      rw [hfx] at h
      exact ⟨x, List.mem_cons_self x xs, by rw [hfx]; exact h⟩
    | none =>
      rw [hfx] at h
      obtain ⟨a, ha, hfa⟩ := ih h
      exact ⟨a, List.mem_cons_of_mem x ha, hfa⟩

/-- C1: the spec says the fallback patterns `core.*` and `first-segment*`
glob for extension variants and shared-stem files, escaping only literal
special characters of the core.  The code instead applies `glob.escape` to
the finished patterns, wildcards included, so both fallbacks only match a
file whose name literally contains `*`.  For the sidecar name
`memory.mp4.a.b.json` (core `memory.mp4`), a directory holding
`memory.mp4.mov` (a `core.*` hit with a whitelisted extension) and
`memory.heic` (a `memory*` hit) yields no match, while the exact first
pattern still works when `memory.mp4` itself is present. -/
theorem c1_fallback_globbing_escaped_away :
    smart_file_matcher "memory.mp4.a.b.json" ["memory.mp4.mov", "memory.heic"] = none ∧
    smart_core "memory.mp4.a.b.json" = some "memory.mp4" ∧
    glob_escape "memory.mp4.*" = "memory.mp4.[*]" ∧
    smart_file_matcher "memory.mp4.a.b.json" ["memory.mp4"] = some "memory.mp4" := by
  refine ⟨by decide, by decide, by decide, by decide⟩

/-- C2: the claim says every valid numeric epoch, epoch 0 included, resolves
to the UTC value plus eight hours.  The code's `if not timestamp:` treats
the parsed epoch 0 as "no time source" (and the walrus test skips a numeric
0 outright), so a sidecar whose taken-timestamp is "0" resolves to `None`
instead of the expected "1970:01:01 08:00:00"; nonzero epochs do resolve to
the shifted string. -/
theorem c2_epoch_zero_rejected :
    enhanced_parse_time 0 ⟨some (TimeValue.str "0"), none, none, none, none, none⟩ = none ∧
    enhanced_parse_time 0 ⟨some (TimeValue.num 0), none, none, none, none, none⟩ = none ∧
    beijing_time 0 = some "1970:01:01 08:00:00" ∧
    enhanced_parse_time 0 ⟨some (TimeValue.num 28800), none, none, none, none, none⟩ =
      some "1970:01:01 16:00:00" := by
  refine ⟨by decide, by decide, by decide, by decide⟩

/-- C7: the claim (and the source's own comment `memory.mp4.su.json →
memory.mp4`) takes the matcher to strip two trailing segments before
`.json`, so `trip.mp4.supplemental-metadata.json` should yield core
`trip.mp4` and match a directory entry `trip.mp4`.  The regex
`^(.*)\.[^.]+\.[^.]+\.json$` strips a third segment as well: the core comes
out as `trip` and no pattern matches `trip.mp4`, so the matcher returns no
match on the claim's own example.  The rejection of the one-segment name
`trip.weird.json` does hold. -/
theorem c7_core_loses_extension_segment :
    smart_file_matcher "trip.mp4.supplemental-metadata.json" ["trip.mp4"] = none ∧
    smart_core "trip.mp4.supplemental-metadata.json" = some "trip" ∧
    smart_file_matcher "trip.weird.json" ["trip.mp4", "trip.weird"] = none := by
  refine ⟨by decide, by decide, by decide⟩

/-- C10: `robust_exiftool_exec` mutates the caller's command list in place
by inserting `-m` at index 1 before the first invocation: afterwards the
caller's list is the original with `-m` spliced in after the first element,
and in particular differs from the list passed in. -/
theorem c10_cmd_mutated_in_place (cmd : List String) (file_path : String)
    (env : Nat → ProcOutcome) :
    (robust_exiftool_exec cmd file_path env).final_cmd =
      cmd.take 1 ++ "-m" :: cmd.drop 1 ∧
    (robust_exiftool_exec cmd file_path env).final_cmd ≠ cmd := by
  constructor
  · rfl
  · intro h
    have hlen := congrArg List.length h
    simp [robust_exiftool_exec, py_insert] at hlen
    omega

/-- C3: the claim says every exception in the run/clean/retry sequence —
including one thrown by the first invocation — is caught and returned as a
failure result.  The first `run_command(cmd)` sits before the `try` block,
so an environment whose first invocation raises makes the call propagate
the exception instead of returning. -/
theorem c3_first_invocation_raises :
    (robust_exiftool_exec ["exiftool", "-overwrite_original", "a.jpg"] "a.jpg"
        (fun _ => ProcOutcome.exn "boom")).result = Except.error "boom" ∧
    ¬∃ p : Bool × Option String,
      (robust_exiftool_exec ["exiftool", "-overwrite_original", "a.jpg"] "a.jpg"
        (fun _ => ProcOutcome.exn "boom")).result = Except.ok p := by
  constructor
  · rfl
  · rintro ⟨p, hp⟩
    simp [robust_exiftool_exec, robust_runs] at hp

/-- C3 (amended): once the first invocation completes with an exit status,
no exception escapes: any exception raised during the clean or retry part
of the sequence is caught and reported as a failure result, so the call
returns a pair rather than raising. -/
theorem c3_returns_when_first_invocation_completes (cmd : List String)
    (file_path : String) (env : Nat → ProcOutcome) (rc : Int) (s : String)
    (h : env 0 = ProcOutcome.ok rc s) :
    ∃ p : Bool × Option String,
      (robust_exiftool_exec cmd file_path env).result = Except.ok p := by
  unfold robust_exiftool_exec robust_runs
  rw [h]
  by_cases h0 : rc = 0
  · simp [h0]
  · simp only [h0, if_false]
    cases env 1 with
    | exn m => exact ⟨_, rfl⟩
    | ok crc cerr =>
      by_cases h1 : crc = 0
      · simp only [h1, ne_eq, not_true_eq_false, if_false]
        cases env 2 with
        | exn m => exact ⟨_, rfl⟩
        | ok rrc rerr =>
          by_cases h2 : rrc = 0
          · simp [h2]
          · simp [h2]
      · simp [h1]

/-- Witness for `c3_returns_when_first_invocation_completes` at a concrete
environment whose first invocation exits 0. -/
theorem c3_returns_witness :
    ∃ p : Bool × Option String,
      (robust_exiftool_exec ["exiftool", "b.jpg"] "b.jpg"
        (fun _ => ProcOutcome.ok 0 "")).result = Except.ok p :=
  c3_returns_when_first_invocation_completes ["exiftool", "b.jpg"] "b.jpg"
    (fun _ => ProcOutcome.ok 0 "") 0 "" rfl

/-- C4: the retry protocol of the metadata writer.  With `-m` inserted as
the second argument, a zero first exit status is success with a single
invocation; a nonzero first exit status triggers exactly one strip command
on the target file; a failing strip returns failure carrying the strip's
stderr; a successful strip reruns the command once and that run's outcome
is final, for exactly two invocations of the (augmented) command plus one
strip call. -/
theorem c4_retry_protocol (cmd : List String) (file_path : String)
    (env : Nat → ProcOutcome) (rc0 : Int) (s0 : String)
    (h0 : env 0 = ProcOutcome.ok rc0 s0) :
    (rc0 = 0 →
      (robust_exiftool_exec cmd file_path env).result = Except.ok (true, none) ∧
      (robust_exiftool_exec cmd file_path env).trace = [py_insert 1 "-m" cmd]) ∧
    (rc0 ≠ 0 → ∀ rc1 s1, env 1 = ProcOutcome.ok rc1 s1 →
      (rc1 ≠ 0 →
        (robust_exiftool_exec cmd file_path env).result =
          Except.ok (false, some ("清空元数据失败: " ++ str_strip s1)) ∧
        (robust_exiftool_exec cmd file_path env).trace =
          [py_insert 1 "-m" cmd, clean_cmd_for file_path]) ∧
      (rc1 = 0 → ∀ rc2 s2, env 2 = ProcOutcome.ok rc2 s2 →
        (robust_exiftool_exec cmd file_path env).trace =
          [py_insert 1 "-m" cmd, clean_cmd_for file_path, py_insert 1 "-m" cmd] ∧
        (rc2 = 0 →
          (robust_exiftool_exec cmd file_path env).result = Except.ok (true, none)) ∧
        (rc2 ≠ 0 →
          (robust_exiftool_exec cmd file_path env).result =
            Except.ok (false, some ("最终失败: " ++ str_strip s2))))) := by
  constructor
  · intro hz
    constructor <;> simp [robust_exiftool_exec, robust_runs, h0, hz]
  · intro hnz rc1 s1 h1
    constructor
    · intro hc
      constructor <;> simp [robust_exiftool_exec, robust_runs, h0, h1, hnz, hc]
    · intro hcz rc2 s2 h2
      refine ⟨?_, ?_, ?_⟩
      · rcases eq_or_ne rc2 0 with hr | hr <;>
          simp [robust_exiftool_exec, robust_runs, h0, h1, h2, hnz, hcz, hr]
      · intro hr
        simp [robust_exiftool_exec, robust_runs, h0, h1, h2, hnz, hcz, hr]
      · intro hr
        simp [robust_exiftool_exec, robust_runs, h0, h1, h2, hnz, hcz, hr]

/-- Witness for `c4_retry_protocol`: first invocation exits 1, the strip
exits 0, the retry exits 0 — overall success with exactly two invocations
of the augmented command around one strip call. -/
theorem c4_retry_witness :
    (robust_exiftool_exec ["exiftool", "a.jpg"] "a.jpg"
      (fun i => match i with
        | 0 => ProcOutcome.ok 1 "first error"
        | _ => ProcOutcome.ok 0 "")).trace =
      [["exiftool", "-m", "a.jpg"],
       ["exiftool", "-m", "-overwrite_original", "-all=", "a.jpg"],
       ["exiftool", "-m", "a.jpg"]] ∧
    (robust_exiftool_exec ["exiftool", "a.jpg"] "a.jpg"
      (fun i => match i with
        | 0 => ProcOutcome.ok 1 "first error"
        | _ => ProcOutcome.ok 0 "")).result = Except.ok (true, none) := by
  have h := c4_retry_protocol ["exiftool", "a.jpg"] "a.jpg"
    (fun i => match i with
      | 0 => ProcOutcome.ok 1 "first error"
      | _ => ProcOutcome.ok 0 "") 1 "first error" rfl
  have h2 := (h.2 (by decide) 0 "" rfl).2 rfl 0 "" rfl
  exact ⟨h2.1, h2.2.1 rfl⟩

/-- Helper: the source-scanning loop equals the amended first-usable
selection (falsy values skipped, parse failures falling through). -/
theorem find_timestamp_eq_amended (localOff : Int) :
    ∀ srcs : List (Option TimeValue),
      find_timestamp localOff srcs = amended_first_usable localOff srcs := by
  intro srcs
  induction srcs with
  | nil => rfl
  | cons src rest ih =>
    unfold find_timestamp amended_first_usable
    rw [List.findSome?_cons]
    cases src with
    | none => simpa [amended_first_usable] using ih
    | some v =>
      by_cases ht : truthy_value v
      · simp only [ht, if_true, Option.some_bind]
        cases hp : try_parse_value localOff v with
        | some t => simp [hp]
        | none => simpa [hp, amended_first_usable] using ih
      · simpa [ht, amended_first_usable] using ih

/-- C5 (counterexample): the claim says the first location holding a usable
value — numeric values included — is the one used.  With a numeric 0 in the
taken-timestamp slot and 28800 in the creation-timestamp slot, the claim
selects epoch 0, but the walrus truthiness test skips the 0 and the code
uses 28800, observably returning the 16:00 string. -/
theorem c5_first_usable_counterexample :
    find_timestamp 0 (time_sources
      ⟨some (TimeValue.num 0), some (TimeValue.num 28800), none, none, none, none⟩) =
      some 28800 ∧
    claim_first_usable 0 (time_sources
      ⟨some (TimeValue.num 0), some (TimeValue.num 28800), none, none, none, none⟩) =
      some 0 ∧
    enhanced_parse_time 0
      ⟨some (TimeValue.num 0), some (TimeValue.num 28800), none, none, none, none⟩ =
      some "1970:01:01 16:00:00" ∧
    (some (28800 : Int) ≠ some (0 : Int)) := by
  refine ⟨by decide, by decide, by decide, by decide⟩

/-- C5 (amended): the four locations are examined in the source order
taken-epoch, creation-epoch, taken-formatted, creation-formatted; a
location that is absent, falsy (numeric 0 or empty string) or unparseable
falls through to the next; the first remaining location's value is the one
used — except that a resolved epoch of exactly 0, or one outside the
representable datetime range, yields "no time". -/
theorem c5_priority_with_falsy_skip (localOff : Int) (s : Sidecar) :
    enhanced_parse_time localOff s =
      match amended_first_usable localOff (time_sources s) with
      | none => none
      | some t => if t = 0 then none else beijing_time t := by
  unfold enhanced_parse_time
  rw [find_timestamp_eq_amended]

/-- C6: geo extraction returns no coordinate when both values are within
epsilon of zero (in particular for the (0, 0) sentinel), returns no
coordinate with a logged warning when either value is out of range, and
otherwise returns the pair. -/
theorem c6_geo_validation (s : Sidecar) (lat lon : ℚ)
    (hlat : s.geoData_latitude.getD 0 = lat)
    (hlon : s.geoData_longitude.getD 0 = lon) :
    (|lat| < 1 / 1000000 ∧ |lon| < 1 / 1000000 → safe_geo_parse s = (none, false)) ∧
    (¬(-90 ≤ lat ∧ lat ≤ 90) ∨ ¬(-180 ≤ lon ∧ lon ≤ 180) →
      safe_geo_parse s = (none, true)) ∧
    ((1 / 1000000 ≤ |lat| ∨ 1 / 1000000 ≤ |lon|) → -90 ≤ lat ∧ lat ≤ 90 →
      -180 ≤ lon ∧ lon ≤ 180 → safe_geo_parse s = (some (lat, lon), false)) := by
  unfold safe_geo_parse
  simp only [hlat, hlon]
  refine ⟨?_, ?_, ?_⟩
  · intro hsmall
    rw [if_pos hsmall]
  · intro hrange
    have hns : ¬(|lat| < 1 / 1000000 ∧ |lon| < 1 / 1000000) := by
      rintro ⟨ha, hb⟩
      have ha2 := abs_lt.mp ha
      have hb2 := abs_lt.mp hb
      have e1 : (1 : ℚ) / 1000000 < 90 := by norm_num
      have e2 : (1 : ℚ) / 1000000 < 180 := by norm_num
      rcases hrange with h | h
      · exact h ⟨by linarith, by linarith⟩
      · exact h ⟨by linarith, by linarith⟩
    rw [if_neg hns, if_pos hrange]
  · intro hbig hlatr hlonr
    have hns : ¬(|lat| < 1 / 1000000 ∧ |lon| < 1 / 1000000) := by
      rintro ⟨ha, hb⟩
      rcases hbig with h | h
      · exact absurd ha (not_lt.mpr h)
      · exact absurd hb (not_lt.mpr h)
    have hnr : ¬(¬(-90 ≤ lat ∧ lat ≤ 90) ∨ ¬(-180 ≤ lon ∧ lon ≤ 180)) := by
      rintro (h | h)
      · exact h hlatr
      · exact h hlonr
    rw [if_neg hns, if_neg hnr]

/-- Witness for `c6_geo_validation`: the (0, 0) sentinel is absent without
warning, latitude 91 is rejected with a warning, and (10, 20) is returned. -/
theorem c6_geo_witness :
    safe_geo_parse ⟨none, none, none, none, some 0, some 0⟩ = (none, false) ∧
    safe_geo_parse ⟨none, none, none, none, some 91, some 10⟩ = (none, true) ∧
    safe_geo_parse ⟨none, none, none, none, some 10, some 20⟩ =
      (some (10, 20), false) := by
  refine ⟨?_, ?_, ?_⟩
  · exact (c6_geo_validation ⟨none, none, none, none, some 0, some 0⟩ 0 0 rfl rfl).1
      ⟨by norm_num, by norm_num⟩
  · exact (c6_geo_validation ⟨none, none, none, none, some 91, some 10⟩ 91 10 rfl
      rfl).2.1 (Or.inl (by intro h; exact absurd h.2 (by norm_num)))
  · exact (c6_geo_validation ⟨none, none, none, none, some 10, some 20⟩ 10 20 rfl
      rfl).2.2 (Or.inl (by norm_num)) ⟨by norm_num, by norm_num⟩
      ⟨by norm_num, by norm_num⟩

/-- C8: exit dispatch — invalid directory exits 1; an unhandled exception
from the run exits 1; an empty failure list exits 0 with no report; a
nonempty failure list first writes the `FAILURES_`-prefixed report listing
each failed path and reason, then exits 101. -/
theorem c8_exit_status (isdir : Bool) (run : Except String (List (String × String)))
    (log_path : String) :
    (isdir = false → main_run isdir run log_path = (1, none)) ∧
    (∀ e, run = Except.error e → main_run true run log_path = (1, none)) ∧
    (run = Except.ok [] → main_run true run log_path = (0, none)) ∧
    (∀ failed, run = Except.ok failed → failed ≠ [] →
      main_run true run log_path =
        (101, some ("FAILURES_" ++ log_path, failure_report_lines failed)) ∧
      ∀ p r, (p, r) ∈ failed →
        ("文件路径: " ++ p) ∈ failure_report_lines failed ∧
        ("失败原因: " ++ r) ∈ failure_report_lines failed) := by
  refine ⟨?_, ?_, ?_, ?_⟩
  · intro h
    simp [main_run, h]
  · intro e h
    simp [main_run, h]
  · intro h
    simp [main_run, h]
  · intro failed h hne
    constructor
    · cases failed with
      | nil => exact absurd rfl hne
      | cons a t => simp [main_run, h, generate_failure_log]
    · intro p r hm
      constructor
      · apply List.mem_append_right
        rw [List.mem_flatMap]
        exact ⟨(p, r), hm, by simp⟩
      · apply List.mem_append_right
        rw [List.mem_flatMap]
        exact ⟨(p, r), hm, by simp⟩

/-- Witness for `c8_exit_status` at concrete runs: each exit status and the
written report on a one-failure run. -/
theorem c8_exit_status_witness :
    main_run false (Except.ok []) "PhotoRepair_x.log" = (1, none) ∧
    main_run true (Except.error "oops") "PhotoRepair_x.log" = (1, none) ∧
    main_run true (Except.ok []) "PhotoRepair_x.log" = (0, none) ∧
    main_run true (Except.ok [("a.jpg", "无有效元数据")]) "PhotoRepair_x.log" =
      (101, some ("FAILURES_PhotoRepair_x.log",
        failure_report_lines [("a.jpg", "无有效元数据")])) ∧
    ("文件路径: a.jpg") ∈ failure_report_lines [("a.jpg", "无有效元数据")] := by
  have h1 := c8_exit_status false (Except.ok []) "PhotoRepair_x.log"
  have h2 := c8_exit_status true (Except.error "oops") "PhotoRepair_x.log"
  have h3 := c8_exit_status true (Except.ok []) "PhotoRepair_x.log"
  have h4 := c8_exit_status true (Except.ok [("a.jpg", "无有效元数据")])
    "PhotoRepair_x.log"
  obtain ⟨hm, hmem⟩ := h4.2.2.2 [("a.jpg", "无有效元数据")] rfl (by simp)
  exact ⟨h1.1 rfl, h2.2.1 "oops" rfl, h3.2.2.1 rfl, hm,
    (hmem "a.jpg" "无有效元数据" (by simp)).1⟩

/-- C9: whenever the matcher returns a path, that path's final extension is
in the whitelist (case-insensitively) and the path does not end in ".json"
— the matcher can never select another sidecar file. -/
theorem c9_match_has_whitelisted_extension (json_name : String)
    (files : List String) (r : String)
    (h : smart_file_matcher json_name files = some r) :
    lowerStr (splitext_ext r) ∈ valid_exts ∧
      endsWithStr (lowerStr r) ".json" = false := by
  unfold smart_file_matcher at h
  cases hc : smart_core json_name with
  | none =>
    rw [hc] at h
    exact absurd h (by simp)
  | some core_name =>
    rw [hc] at h
    obtain ⟨pat, _, hpat⟩ := exists_of_findSome?_eq_some h
    unfold match_one_pattern at hpat
    have hv := List.find?_some hpat
    unfold valid_candidate at hv
    rw [Bool.and_eq_true] at hv
    obtain ⟨h1, h2⟩ := hv
    refine ⟨of_decide_eq_true h1, ?_⟩
    simpa using h2

/-- Witness for `c9_match_has_whitelisted_extension`: the match of
`video.mov.x.y.json` onto `video.mov` has a whitelisted extension. -/
theorem c9_match_witness :
    lowerStr (splitext_ext "video.mov") ∈ valid_exts ∧
      endsWithStr (lowerStr "video.mov") ".json" = false :=
  c9_match_has_whitelisted_extension "video.mov.x.y.json" ["video.mov"]
    "video.mov" (by decide)

end FixMetadata
